import Mathlib

/-!
Verification development for the NEXUS backend (model router, streaming
orchestrator, conversation store).

The definitions below are a shallow embedding of the Python sources:
 - `src/backend/model_router.py`  (TaskType, ModelRouter)
 - `src/backend/nexus_core.py`    (NexusCore.generate_response, _prepare_messages)
 - `src/backend/chat_manager.py`  (ChatManager, SQLite tables)
 - `src/api.py`                   (the /chat endpoint glue)

Machine-level details that the embedding makes explicit:
 - Python regexes are embedded as an abstract-syntax tree `RE` covering
   exactly the constructs the router patterns use, with a total matcher
   implementing `re.search` semantics (existence of a match at some
   position, word boundaries, anchors, greedy classes reduced to
   all-splits since only existence matters).
 - The Ollama byte stream is embedded as the list of lines the code
   iterates over, each line already classified by the `json.loads` parse
   step (`blank` for lines failing `line.strip()`, `malformed` for a
   `JSONDecodeError`, `ok` for a parsed chunk), plus an optional
   exception that ends the stream (network failure / timeout).
 - SQLite tables are lists of rows in rowid (insertion) order; every
   store operation is one state transition, matching the one-transaction-
   per-operation structure of `chat_manager.py`.
-/

namespace Nexus

/-! ## Task types (`model_router.py`, class TaskType) -/

/-- The TaskType enum from `model_router.py` lines 11-17, in declaration order. -/
inductive TaskType where
  | CODE
  | RESEARCH
  | PLANNING
  | QUICK
  | GENERAL
deriving DecidableEq, Repr

/-- The `.value` string of each enum member (from `model_router.py`). -/
def TaskType.value : TaskType → String
  | .CODE => "code"
  | .RESEARCH => "research"
  | .PLANNING => "planning"
  | .QUICK => "quick"
  | .GENERAL => "general"

/-- Position of a task type in the declaration order of the `TaskType`
enum (equivalently, in the insertion order of the `scores` dict of
`analyze_intent`). -/
def taskIdx : TaskType → Nat
  | .CODE => 0
  | .RESEARCH => 1
  | .PLANNING => 2
  | .QUICK => 3
  | .GENERAL => 4

/-! ## A small regex engine

The intent patterns of the router use only: literals, alternation,
concatenation, `\b`, `^`, `$`, `.*`, `[\w]*` and `\w{lo,hi}`.  `RE`
embeds exactly these constructs and `reSearch` implements Python
`re.search` (is there a match starting at any position?).  Patterns are
matched against the lowercased query, which together with the patterns
being lowercase reproduces `re.IGNORECASE`. -/

/-- Python `\w` (ASCII part, which is all that the router queries use). -/
def isWordChar (c : Char) : Bool := c.isAlphanum || c == '_'

/-- Abstract syntax of the regular expressions used in `model_router.py`:
`lit` a literal character sequence, `alt`/`cat` alternation and
concatenation, `anyStar` for `.*` (any char except newline, zero or
more), `wordStar` for `[\w]*`, `wordRep lo hi` for `\w{lo,hi}`,
`wb` for `\b`, `bos` for `^`, `eos` for `$`. -/
inductive RE where
  | lit (cs : List Char)
  | alt (a b : RE)
  | cat (a b : RE)
  | anyStar
  | wordStar
  | wordRep (lo hi : Nat)
  | wb
  | bos
  | eos

/-- Consume a literal from the front of the input, if present. -/
def litChomp : List Char → List Char → Option (List Char)
  | [], s => some s
  | _ :: _, [] => none
  | c :: cs, d :: s => if c = d then litChomp cs s else none

/-- The character just before the current position after consuming `cs`
(used to decide word boundaries); `prev` if `cs` is empty. -/
def endChar (cs : List Char) (prev : Option Char) : Option Char :=
  match cs.getLast? with
  | some c => some c
  | none => prev

/-- All ways to consume `k ≥ 0` leading characters satisfying `f`,
returning `(k, last consumed char, rest)`. -/
def classTakes (f : Char → Bool) : Option Char → List Char → List (Nat × Option Char × List Char)
  | prev, [] => [(0, prev, [])]
  | prev, c :: s =>
      (0, prev, c :: s) ::
        (if f c then (classTakes f (some c) s).map (fun p => (p.1 + 1, p.2.1, p.2.2)) else [])

/-- Is the optional character a word character (`none`, i.e. the edge of
the string, counts as a non-word position, as in Python `\b`)? -/
def isWordOpt : Option Char → Bool
  | some c => isWordChar c
  | none => false

/-- All outcomes of matching `r` at the current position: each outcome is
the pair (character before the new position, remaining input).  `prev` is
the character before the current position (`none` at string start). -/
def matchRE : RE → Option Char → List Char → List (Option Char × List Char)
  | .lit cs, prev, s =>
      match litChomp cs s with
      | some rest => [(endChar cs prev, rest)]
      | none => []
  | .alt a b, prev, s => matchRE a prev s ++ matchRE b prev s
  | .cat a b, prev, s => (matchRE a prev s).flatMap (fun p => matchRE b p.1 p.2)
  | .anyStar, prev, s => (classTakes (fun c => c != '\n') prev s).map (fun p => p.2)
  | .wordStar, prev, s => (classTakes isWordChar prev s).map (fun p => p.2)
  | .wordRep lo hi, prev, s =>
      ((classTakes isWordChar prev s).filter (fun p => decide (lo ≤ p.1 ∧ p.1 ≤ hi))).map
        (fun p => p.2)
  | .wb, prev, s => if isWordOpt prev != isWordOpt s.head? then [(prev, s)] else []
  | .bos, prev, s => if prev.isNone then [(prev, s)] else []
  | .eos, prev, s => if s.isEmpty || s == ['\n'] then [(prev, s)] else []

/-- Try to match `r` at the current position or at any later position. -/
def searchFrom (r : RE) : Option Char → List Char → Bool
  | prev, [] => !(matchRE r prev []).isEmpty
  | prev, c :: s => !(matchRE r prev (c :: s)).isEmpty || searchFrom r (some c) s

/-- Semantics of `re.search(r, s)` as a Bool: does `r` match somewhere in `s`? -/
def reSearch (r : RE) (s : String) : Bool := searchFrom r none s.data

/-- Lowercasing as `str.lower()` does it (ASCII case, all the patterns need). -/
def lowerStr (s : String) : String := ⟨s.data.map Char.toLower⟩

/-! ## The intent patterns of `ModelRouter.__init__` (lines 28-50) -/

/-- A literal regex from a string. -/
def reLit (s : String) : RE := RE.lit s.data

/-- Left-fold a head and a tail of alternatives into nested `alt`s
(the `(x|y|z)` groups of the patterns). -/
def altOf (r : RE) (rs : List RE) : RE := rs.foldl RE.alt r

/-- Pattern shape: a word-boundary-wrapped alternation group. -/
def groupB (r : RE) (rs : List RE) : RE := RE.cat RE.wb (RE.cat (altOf r rs) RE.wb)

/-- Keyword group: a word-boundary-wrapped alternation of plain literals. -/
def wordGroup (w : String) (ws : List String) : RE := groupB (reLit w) (ws.map reLit)

/-- Gap phrase: one literal, then anything, then another (the third CODE pattern). -/
def gapPhrase (a b : String) : RE := RE.cat (reLit a) (RE.cat RE.anyStar (reLit b))

/-- The four CODE patterns of `intent_patterns[TaskType.CODE]`. -/
def codePatterns : List RE :=
  [ wordGroup ("code")
      ["program", "function", "class", "debug", "error", "bug", "implement", "script",
       "algorithm"],
    wordGroup ("python") ["javascript", "java", "c++", "rust", "go", "typescript"],
    groupB (gapPhrase ("write") ("code"))
      [gapPhrase ("generate") ("code"), gapPhrase ("create") ("function"),
       gapPhrase ("fix") ("bug")],
    RE.cat (reLit ("```")) (RE.cat RE.wordStar (reLit ("\n"))) ]

/-- The three RESEARCH patterns. -/
def researchPatterns : List RE :=
  [ wordGroup ("research") ["explain", "analyze", "compare", "study", "investigate", "explore"],
    wordGroup ("what is") ["how does", "why", "tell me about", "detailed", "comprehensive"],
    wordGroup ("history") ["background", "overview", "summary", "breakdown"] ]

/-- The three PLANNING patterns. -/
def planningPatterns : List RE :=
  [ wordGroup ("plan") ["strategy", "approach", "design", "architect", "organize", "structure"],
    wordGroup ("steps") ["roadmap", "workflow", "process", "methodology"],
    wordGroup ("how to") ["how should", "what should", "best way"] ]

/-- The three QUICK patterns (`^\w{1,20}\?$`, keyword group, short-greeting). -/
def quickPatterns : List RE :=
  [ RE.cat RE.bos (RE.cat (RE.wordRep 1 20) (RE.cat (reLit ("?")) RE.eos)),
    wordGroup ("quick") ["simple", "just", "only"],
    RE.cat RE.bos
      (RE.cat
        (altOf (reLit ("yes")) [reLit ("no"), reLit ("ok"), reLit ("thanks"),
          reLit ("hello"), reLit ("hi")])
        RE.wb) ]

/-- The intent-pattern dict from `ModelRouter.__init__`.  GENERAL
has no key in the dict, hence no patterns, so its score is always 0. -/
def intent_patterns : TaskType → List RE
  | .CODE => codePatterns
  | .RESEARCH => researchPatterns
  | .PLANNING => planningPatterns
  | .QUICK => quickPatterns
  | .GENERAL => []

/-- The score one task type gets in `analyze_intent`: the number of its
patterns that `re.search` finds in the lowercased query. -/
def patScore (q : String) (t : TaskType) : Nat :=
  (intent_patterns t).countP (fun r => reSearch r (lowerStr q))

/-- Python `max(items, key=lambda x: x[1])` over a nonempty list given as
head and tail: keeps the earliest item among tied maxima (CPython `max`
replaces the current best only on a strictly greater key). -/
def pyMaxSnd (x : TaskType × Nat) (l : List (TaskType × Nat)) : TaskType × Nat :=
  l.foldl (fun best y => if best.2 < y.2 then y else best) x

/-- Embedding of `ModelRouter.analyze_intent` (lines 52-77): score all five task types
(the `scores` dict is built in `TaskType` declaration order), return
GENERAL when the maximum score is 0, otherwise the first task type (in
dict insertion order) attaining the maximum. -/
def analyze_intent (q : String) : TaskType :=
  let sC := patScore q TaskType.CODE
  let sR := patScore q TaskType.RESEARCH
  let sP := patScore q TaskType.PLANNING
  let sQ := patScore q TaskType.QUICK
  let sG := patScore q TaskType.GENERAL
  let maxScore := Nat.max sC (Nat.max sR (Nat.max sP (Nat.max sQ sG)))
  if maxScore = 0 then TaskType.GENERAL
  else
    (pyMaxSnd (TaskType.CODE, sC)
      [(TaskType.RESEARCH, sR), (TaskType.PLANNING, sP), (TaskType.QUICK, sQ),
       (TaskType.GENERAL, sG)]).1

/-! ## Model router registry (`model_router.py` lines 20-103) -/

/-- A model descriptor from the `ollama.models` config dict (the fields
`select_model` and `get_model_info` read). -/
structure ModelInfo where
  name : String
  role : String
deriving DecidableEq, Repr

/-- The router: its models field is the registry dict of the config, in
insertion order, embedded as an association list. -/
structure Router where
  models : List (String × ModelInfo)
deriving DecidableEq, Repr

/-- Python `dict.get(k)`. -/
def dictGet (d : List (String × ModelInfo)) (k : String) : Option ModelInfo :=
  (d.find? (fun p => p.1 == k)).map (fun p => p.2)

/-- The fallback chain of lines 93 and 103: the registry entry under the
key default, else the first registry entry, else `none` (in Python, a
raised StopIteration). -/
def Router.default_info (r : Router) : Option ModelInfo :=
  match dictGet r.models ("default") with
  | some mi => some mi
  | none => (r.models.head?).map (fun p => p.2)

/-- Embedding of `ModelRouter.select_model` (lines 79-99): classify, then always use
the default descriptor; `none` models the exception on an empty registry. -/
def Router.select_model (r : Router) (query : String) : Option (String × String × TaskType) :=
  (r.default_info).map (fun mi => (mi.name, mi.role, analyze_intent query))

/-- Embedding of `ModelRouter.get_model_info` (lines 101-103): ignores `model_key`. -/
def Router.get_model_info (r : Router) (model_key : String) : Option ModelInfo :=
  r.default_info

/-! ## Streaming orchestrator (`nexus_core.py` lines 58-165) -/

/-- One entry of the in-memory conversation history (a role/content dict). -/
structure Msg where
  role : String
  content : String
deriving DecidableEq, Repr

/-- The fields `generate_response` reads from a successfully parsed
frame: the content string fetched under the message key with empty-string
default (so `message = some s` means the message key is present, with `s`
possibly that default), and the done flag fetched with default False. -/
structure Chunk where
  message : Option String
  done : Bool
deriving DecidableEq, Repr

/-- One line of the backend stream, after the parse step of the loop
body: `blank` for a line failing `line.strip()`, `malformed` for a
`json.JSONDecodeError`, `ok` for a parsed chunk. -/
inductive RawLine where
  | blank
  | malformed
  | ok (c : Chunk)
deriving DecidableEq, Repr

/-- The stream interaction of one `generate_response` call: the lines
actually delivered by `response.aiter_lines()`, and `exn = some e` when
the `httpx` call raises (connection failure, timeout, mid-stream error)
after those lines; `exn = none` is a clean end of stream. -/
structure Backend where
  lines : List RawLine
  exn : Option String
deriving DecidableEq, Repr

/-- The events `generate_response` yields. -/
inductive Event where
  | modelSelected (model role task_type : String)
  | content (content : String) (done : Bool)
  | complete (full_response model : String)
  | error (err model : String)
deriving DecidableEq, Repr

def isErrorEv : Event → Bool
  | .error _ _ => true
  | _ => false

def isContentEv : Event → Bool
  | .content _ _ => true
  | _ => false

/-- A `complete` or `error` event (the terminal events of the protocol). -/
def isTerminalEv : Event → Bool
  | .complete _ _ => true
  | .error _ _ => true
  | _ => false

/-- Does this stream line carry `done == true`? -/
def isDoneLine : RawLine → Bool
  | .ok c => c.done
  | _ => false

/-- The loop body of `generate_response` (lines 113-142) for one line:
given the running `full_response` and `self.conversation_history`,
return the new buffer, the new history, and the events yielded for this
line, in order.  Blank and unparseable lines contribute nothing
(`continue`); a chunk with a nonempty `message.content` appends to the
buffer and yields a `content` event; a chunk with `done` (checked after
the content handling) appends the assistant message to the history and
yields `complete`. -/
def lineResult (model : String) (full : String) (hist : List Msg) :
    RawLine → String × List Msg × List Event
  | .blank => (full, hist, [])
  | .malformed => (full, hist, [])
  | .ok c =>
      let fe : String × List Event :=
        match c.message with
        | none => (full, [])
        | some content =>
            if content = "" then (full, [])
            else (full ++ content, [Event.content content c.done])
      if c.done then
        (fe.1, hist ++ [⟨"assistant", fe.1⟩], fe.2 ++ [Event.complete fe.1 model])
      else (fe.1, hist, fe.2)

/-- The `async for line in response.aiter_lines()` loop: thread the
buffer and history through `lineResult`, collecting the yielded events
in order. -/
def runLines (model : String) : String → List Msg → List RawLine → String × List Msg × List Event
  | full, hist, [] => (full, hist, [])
  | full, hist, l :: ls =>
      let r1 := lineResult model full hist l
      let r2 := runLines model r1.1 r1.2.1 ls
      (r2.1, r2.2.1, r1.2.2 ++ r2.2.2)

/-- Embedding of `NexusCore._get_system_prompt` (lines 167-205), the fixed persona
preamble (content irrelevant to the claims, kept for faithfulness). -/
def get_system_prompt : String :=
  "You are NEXUS, a next-generation Super AI Agent built to operate at the level of ChatGPT and Gemini. You think like a senior software engineer, AI architect, and systems thinker. Your primary mission: Deliver clear thinking, correct solutions, and real progress on every task. Celebrate progress and wins confidently with \"SIUUUU\""

/-- Embedding of `NexusCore._prepare_messages` (lines 151-165): a system message
followed by the last 10 entries of the conversation history
(`self.conversation_history[-10:]`). -/
def prepare_messages (hist : List Msg) : List Msg :=
  ⟨"system", get_system_prompt⟩ :: hist.drop (hist.length - 10)

/-- The outcome of one `generate_response` call: the events yielded, in
order, and the final `self.conversation_history`. -/
structure GenResult where
  events : List Event
  history : List Msg
deriving DecidableEq, Repr

/-- Embedding of `NexusCore.generate_response` (lines 58-149) as a function of the
backend stream interaction: select the model (raises, i.e. `none`, on an
empty registry), yield `model_selected`, append the user turn to the
in-memory history, run the line loop over the delivered lines, and, when
the call raised an exception, yield a single final `error` event.  A
clean end of stream yields nothing further.  The routine never touches
the `ChatManager` store. -/
def generate_response (r : Router) (hist : List Msg) (query : String) (b : Backend) :
    Option GenResult :=
  match r.select_model query with
  | none => none
  | some sel =>
      let model_name := sel.1
      let hist1 := hist ++ [⟨"user", query⟩]
      let run := runLines model_name ("") hist1 b.lines
      let tailEvs : List Event :=
        match b.exn with
        | some e => [Event.error e model_name]
        | none => []
      some ⟨Event.modelSelected sel.1 sel.2.1 sel.2.2.value :: (run.2.2 ++ tailEvs),
            run.2.1⟩

/-! ## Conversation store (`chat_manager.py`) -/

/-- A row of the `conversations` table. -/
structure ConvRow where
  id : Nat
  title : String
  created_at : Nat
  updated_at : Nat
  model : Option String
  message_count : Nat
deriving DecidableEq, Repr

/-- A row of the `messages` table. -/
structure MsgRow where
  id : Nat
  conversation_id : Nat
  role : String
  content : String
  model : Option String
  timestamp : Nat
deriving DecidableEq, Repr

/-- A row of the `messages_fts` full-text index. -/
structure FtsRow where
  content : String
  conversation_id : Nat
deriving DecidableEq, Repr

/-- The SQLite database: each table as its rows in rowid (insertion)
order, plus the AUTOINCREMENT counters.  Timestamps (`CURRENT_TIMESTAMP`)
are naturals supplied as the transaction time `t` of each operation. -/
structure DB where
  convs : List ConvRow
  msgs : List MsgRow
  fts : List FtsRow
  nextConvId : Nat
  nextMsgId : Nat
deriving DecidableEq, Repr

def DB.empty : DB := ⟨[], [], [], 1, 1⟩

/-- Embedding of `ChatManager.create_conversation` (lines 57-65). -/
def create_conversation (db : DB) (title : String) (model : Option String) (t : Nat) :
    Nat × DB :=
  (db.nextConvId,
   { db with
     convs := db.convs ++ [⟨db.nextConvId, title, t, t, model, 0⟩],
     nextConvId := db.nextConvId + 1 })

/-- Embedding of `ChatManager.add_message` (lines 67-91), one transaction: insert the
message row, insert the `messages_fts` row, and bump
`updated_at`/`message_count` of every `conversations` row with this id
(the `UPDATE ... WHERE id = ?`).  Note that SQLite does not enforce the
`FOREIGN KEY` by default, so the inserts succeed even when no such
conversation row exists — no conversation is created implicitly. -/
def add_message (db : DB) (conversation_id : Nat) (role content : String)
    (model : Option String) (t : Nat) : DB :=
  { db with
    msgs := db.msgs ++ [⟨db.nextMsgId, conversation_id, role, content, model, t⟩],
    nextMsgId := db.nextMsgId + 1,
    fts := db.fts ++ [⟨content, conversation_id⟩],
    convs := db.convs.map (fun c =>
      if c.id == conversation_id then
        { c with updated_at := t, message_count := c.message_count + 1 }
      else c) }

/-- The comparator of `ORDER BY timestamp ASC`. -/
def msgLe (a b : MsgRow) : Bool := decide (a.timestamp ≤ b.timestamp)

/-- Embedding of `ChatManager.get_conversation` (lines 107-134): the first
`conversations` row with this id (`fetchone`) or `None`, together with
the messages of the conversation ordered by timestamp ASC (a stable sort,
ties staying in rowid order, as SQLite returns them). -/
def get_conversation (db : DB) (conversation_id : Nat) : Option (ConvRow × List MsgRow) :=
  match db.convs.find? (fun c => c.id == conversation_id) with
  | none => none
  | some conv =>
      some (conv,
        (db.msgs.filter (fun m => m.conversation_id == conversation_id)).mergeSort msgLe)

/-- Embedding of `ChatManager.delete_conversation` (lines 136-142), one transaction:
delete the conversation row, its messages and its index entries; a
missing id simply deletes zero rows. -/
def delete_conversation (db : DB) (conversation_id : Nat) : DB :=
  { db with
    convs := db.convs.filter (fun c => !(c.id == conversation_id)),
    msgs := db.msgs.filter (fun m => !(m.conversation_id == conversation_id)),
    fts := db.fts.filter (fun f => !(f.conversation_id == conversation_id)) }

/-- The fts5 tokenizer (unicode61 default): split on non-alphanumeric
characters, case-folded.  Accumulates the current token in reverse. -/
def tokensAux : List Char → List Char → List (List Char)
  | cur, [] => if cur.isEmpty then [] else [cur.reverse]
  | cur, c :: s =>
      if c.isAlphanum then tokensAux (c :: cur) s
      else if cur.isEmpty then tokensAux [] s
      else cur.reverse :: tokensAux [] s

def ftsTokens (s : String) : List (List Char) := tokensAux [] (s.data.map Char.toLower)

/-- An fts5 bareword character of the query grammar: ASCII alphanumeric,
underscore, or a codepoint at or above 128.  A hyphen is NOT one, which
is why a MATCH query such as unique-token-42 is an fts5 syntax error. -/
def isBarewordChar (c : Char) : Bool :=
  c.isAlphanum || c == '_' || decide (128 ≤ c.val.toNat)

/-- The fts5 operator keywords, which cannot stand alone as terms. -/
def ftsOperatorWords : List (List Char) :=
  [("AND").data, ("OR").data, ("NOT").data, ("NEAR").data]

/-- Splitter for the modelled fragment of the fts5 query grammar:
whitespace-separated barewords, accumulating the current bareword in
reverse.  Any other character is a syntax error (`none`), as the fts5
query parser raises for it. -/
def parseTermsAux : List Char → List Char → Option (List (List Char))
  | cur, [] => some (if cur.isEmpty then [] else [cur.reverse])
  | cur, c :: s =>
      if isBarewordChar c then parseTermsAux (c :: cur) s
      else if c == ' ' then
        match parseTermsAux [] s with
        | none => none
        | some ts => some (if cur.isEmpty then ts else cur.reverse :: ts)
      else none

/-- The fts5 query parser, restricted to the fragment the store claims
exercise: a query parses iff it is a nonempty whitespace-separated
sequence of barewords none of which is an operator keyword.  Everything
else — a hyphenated string such as unique-token-42, an empty query, a
lone AND/OR/NOT/NEAR — raises `sqlite3.OperationalError` in the program,
modelled as `none`.  Operator expressions, quoted phrases, prefix stars
and column filters lie outside the modelled fragment and are mapped to
`none` as well. -/
def ftsParseQuery (q : String) : Option (List (List Char)) :=
  match parseTermsAux [] q.data with
  | none => none
  | some [] => none
  | some ts => if ts.any (fun tm => ftsOperatorWords.contains tm) then none else some ts

/-- Matching of the parsed query terms against indexed content: every
tokenized term occurs among the tokens of the content — the implicit AND
of fts5 term conjunctions (phrase adjacency of multi-token barewords is
not modelled; the claims use single-token terms). -/
def ftsMatch (terms : List (List Char)) (content : String) : Bool :=
  terms.all (fun tm =>
    (tokensAux [] (tm.map Char.toLower)).all (fun tk => (ftsTokens content).contains tk))

/-- The comparator of `ORDER BY c.updated_at DESC`. -/
def convGe (a b : ConvRow) : Bool := decide (b.updated_at ≤ a.updated_at)

/-- Embedding of `ChatManager.search_conversations` (lines 144-159): the
`SELECT DISTINCT c.* FROM conversations c JOIN messages_fts fts ON
c.id = fts.conversation_id WHERE messages_fts MATCH ? ORDER BY
c.updated_at DESC LIMIT ?`.  The join plus DISTINCT keeps exactly the
conversation rows having at least one matching index entry.  The MATCH
argument goes through the fts5 query parser first: on a query outside
the bareword fragment the statement raises `sqlite3.OperationalError`,
which `search_conversations` does not catch (it propagates to the caller
as a StorageError), modelled as the `none` outcome. -/
def search_conversations (db : DB) (query : String) (lim : Nat) : Option (List ConvRow) :=
  match ftsParseQuery query with
  | none => none
  | some terms =>
      some (((db.convs.filter (fun c =>
          db.fts.any (fun f => f.conversation_id == c.id && ftsMatch terms f.content))).mergeSort
        convGe).take lim)

/-- The `POST /chat` endpoint of `api.py` (lines 109-144, streaming
branch): it only drains `generate_response` into the transport and makes
no `chat_manager` call, so the store state passes through unchanged. -/
def api_chat_stream (r : Router) (hist : List Msg) (query : String) (b : Backend) (db : DB) :
    Option (GenResult × DB) :=
  (generate_response r hist query b).map (fun g => (g, db))

/-! ## Theorems -/

/-- C3: for every query string, `analyze_intent` returns GENERAL when
every category has pattern-match count 0; otherwise it returns the
category with the highest match count, ties resolving to the earliest
tied category in the declaration order CODE, RESEARCH, PLANNING, QUICK
(stable argmax, expressed as: the result scores at least every category
and strictly more than every earlier category).  It is a total Lean
function, and on the empty string it returns GENERAL. -/
theorem C3_classify_stable_argmax (q : String) :
    ((patScore q TaskType.CODE = 0 ∧ patScore q TaskType.RESEARCH = 0 ∧
      patScore q TaskType.PLANNING = 0 ∧ patScore q TaskType.QUICK = 0) →
        analyze_intent q = TaskType.GENERAL)
    ∧ ((patScore q TaskType.CODE ≠ 0 ∨ patScore q TaskType.RESEARCH ≠ 0 ∨
        patScore q TaskType.PLANNING ≠ 0 ∨ patScore q TaskType.QUICK ≠ 0) →
        analyze_intent q ≠ TaskType.GENERAL
        ∧ (∀ t : TaskType, patScore q t ≤ patScore q (analyze_intent q))
        ∧ (∀ t : TaskType, taskIdx t < taskIdx (analyze_intent q) →
            patScore q t < patScore q (analyze_intent q)))
    ∧ analyze_intent ("") = TaskType.GENERAL := by
  have hG : patScore q TaskType.GENERAL = 0 := rfl
  refine ⟨?_, ?_, by decide⟩
  · rintro ⟨h1, h2, h3, h4⟩
    unfold analyze_intent
    rw [h1, h2, h3, h4, hG]
    rfl
  · intro h
    simp only [analyze_intent, pyMaxSnd, List.foldl]
    rw [hG]
    split_ifs with h0 h1 h2 h3 h4 h5 h6 h7 h8 h9 h10 h11 h12 h13 h14 <;>
    first
      | (exfalso; simp only [Nat.max_eq_zero_iff] at h0; omega)
      | (refine ⟨by simp, fun t => ?_, fun t hlt => ?_⟩ <;> cases t <;>
          dsimp only [taskIdx] at * <;> omega)

/-- Witness for C3: on the query "hi" the hypothesis of the argmax part
holds (QUICK scores 1 ≠ 0), and the theorem yields that the CODE score
is strictly below the score of the returned category. -/
theorem C3_classify_stable_argmax_witness :
    patScore ("hi") TaskType.CODE < patScore ("hi") (analyze_intent ("hi")) :=
  ((C3_classify_stable_argmax ("hi")).2.1
      (Or.inr (Or.inr (Or.inr (by decide))))).2.2 TaskType.CODE (by decide)

/-- A sample registry with a single `"default"` entry (the shape of the
`config.yaml` model registry). -/
def sampleRouter : Router := ⟨[("default", ⟨"deepseek-v3.1", "Core Intelligence Brain"⟩)]⟩

/-- C4: whenever `select_model` succeeds, the returned model name and
role are those of the default descriptor and so coincide for every pair
of queries, while the returned task type is that query-specific
classification; `get_model_info` ignores its key argument; and on the
two spec queries the classifications differ (CODE vs QUICK) while the
model name is shared. -/
theorem C4_select_model_default (r : Router) (q1 q2 k1 k2 : String)
    (o1 o2 : String × String × TaskType)
    (h1 : r.select_model q1 = some o1) (h2 : r.select_model q2 = some o2) :
    o1.1 = o2.1 ∧ o1.2.1 = o2.2.1
    ∧ o1.2.2 = analyze_intent q1 ∧ o2.2.2 = analyze_intent q2
    ∧ r.get_model_info k1 = r.get_model_info k2
    ∧ analyze_intent ("write a python function to sort a list") = TaskType.CODE
    ∧ analyze_intent ("hi") = TaskType.QUICK := by
  unfold Router.select_model at h1 h2
  cases hd : r.default_info with
  | none => rw [hd] at h1; exact absurd h1 (by simp)
  | some mi =>
      rw [hd] at h1 h2
      simp only [Option.map_some'] at h1 h2
      injection h1 with h1
      injection h2 with h2
      subst h1
      subst h2
      exact ⟨rfl, rfl, rfl, rfl, rfl, by decide, by decide⟩

/-- Witness for C4: the two spec queries through the sample registry;
the final conjunct comes from applying the theorem itself. -/
theorem C4_select_model_default_witness :
    sampleRouter.select_model ("write a python function to sort a list") =
        some ("deepseek-v3.1", "Core Intelligence Brain", TaskType.CODE)
    ∧ sampleRouter.select_model ("hi") =
        some ("deepseek-v3.1", "Core Intelligence Brain", TaskType.QUICK)
    ∧ ("deepseek-v3.1", "Core Intelligence Brain", TaskType.CODE).2.2 =
        analyze_intent ("write a python function to sort a list") :=
  have hA : sampleRouter.select_model ("write a python function to sort a list") =
      some ("deepseek-v3.1", "Core Intelligence Brain", TaskType.CODE) := by decide
  have hB : sampleRouter.select_model ("hi") =
      some ("deepseek-v3.1", "Core Intelligence Brain", TaskType.QUICK) := by decide
  ⟨hA, hB,
    (C4_select_model_default sampleRouter _ _ ("k1") ("k2") _ _ hA hB).2.2.1⟩

/-! ### Stream-processing lemmas -/

/-- A line without the terminal flag leaves the history untouched and
yields only `content` events. -/
lemma lineResult_not_done (m f : String) (h : List Msg) (l : RawLine)
    (hl : isDoneLine l = false) :
    (lineResult m f h l).2.1 = h ∧
    ∃ cs : List (String × Bool),
      (lineResult m f h l).2.2 = cs.map (fun p => Event.content p.1 p.2) := by
  cases l with
  | blank => exact ⟨rfl, [], rfl⟩
  | malformed => exact ⟨rfl, [], rfl⟩
  | ok c =>
      have hc : c.done = false := by simpa [isDoneLine] using hl
      cases hm : c.message with
      | none =>
          refine ⟨?_, [], ?_⟩ <;> simp [lineResult, hc, hm]
      | some s =>
          by_cases hs : s = ""
          · refine ⟨?_, [], ?_⟩ <;> simp [lineResult, hc, hm, hs]
          · refine ⟨?_, [(s, c.done)], ?_⟩ <;> simp [lineResult, hc, hm, hs]

/-- Over a stream with no terminal frame the loop never commits an
assistant message and yields only `content` events. -/
lemma runLines_no_done (m : String) (f : String) (h : List Msg) (lines : List RawLine)
    (hnd : ∀ l ∈ lines, isDoneLine l = false) :
    (runLines m f h lines).2.1 = h ∧
    ∃ cs : List (String × Bool),
      (runLines m f h lines).2.2 = cs.map (fun p => Event.content p.1 p.2) := by
  induction lines generalizing f h with
  | nil => exact ⟨rfl, [], rfl⟩
  | cons l ls ih =>
      have hl := hnd l (List.mem_cons_self _ _)
      have hrest : ∀ x ∈ ls, isDoneLine x = false :=
        fun x hx => hnd x (List.mem_cons_of_mem _ hx)
      obtain ⟨hh1, cs1, hc1⟩ := lineResult_not_done m f h l hl
      obtain ⟨hh2, cs2, hc2⟩ := ih (lineResult m f h l).1 (lineResult m f h l).2.1 hrest
      refine ⟨by simpa [runLines, hh1] using hh2, cs1 ++ cs2, ?_⟩
      simp [runLines, hc1, hc2, List.map_append]

/-- The loop distributes over list append (the Python loop is a fold). -/
lemma runLines_append (m f : String) (h : List Msg) (xs ys : List RawLine) :
    runLines m f h (xs ++ ys) =
      ((runLines m (runLines m f h xs).1 (runLines m f h xs).2.1 ys).1,
       (runLines m (runLines m f h xs).1 (runLines m f h xs).2.1 ys).2.1,
       (runLines m f h xs).2.2 ++
         (runLines m (runLines m f h xs).1 (runLines m f h xs).2.1 ys).2.2) := by
  induction xs generalizing f h with
  | nil => simp [runLines]
  | cons l ls ih => simp [runLines, ih, List.append_assoc]

/-- The loop yields no `error` event; errors come only from the
`except` clause of `generate_response`. -/
lemma runLines_no_error (m f : String) (h : List Msg) (lines : List RawLine) :
    (runLines m f h lines).2.2.countP isErrorEv = 0 := by
  induction lines generalizing f h with
  | nil => rfl
  | cons l ls ih =>
      have hline : (lineResult m f h l).2.2.countP isErrorEv = 0 := by
        cases l with
        | blank => rfl
        | malformed => rfl
        | ok c =>
            cases hm : c.message with
            | none => cases hd : c.done <;> simp [lineResult, hm, hd, isErrorEv]
            | some s =>
                by_cases hs : s = "" <;> cases hd : c.done <;>
                  simp [lineResult, hm, hd, hs, isErrorEv]
      simp [runLines, List.countP_append, hline, ih]

/-- A terminal frame commits the accumulated buffer as an assistant
message and yields (after an optional `content` event) a `complete`
event carrying that buffer. -/
lemma lineResult_done (m f : String) (h : List Msg) (c : Chunk) (hc : c.done = true) :
    ∃ cs : List (String × Bool), ∃ full : String,
      (lineResult m f h (.ok c)).2.2 =
        cs.map (fun p => Event.content p.1 p.2) ++ [Event.complete full m]
      ∧ (lineResult m f h (.ok c)).2.1 = h ++ [⟨"assistant", full⟩] := by
  cases hm : c.message with
  | none =>
      exact ⟨[], f, by simp [lineResult, hm, hc], by simp [lineResult, hm, hc]⟩
  | some s =>
      by_cases hs : s = ""
      · exact ⟨[], f, by simp [lineResult, hm, hc, hs], by simp [lineResult, hm, hc, hs]⟩
      · exact ⟨[(s, c.done)], f ++ s, by simp [lineResult, hm, hc, hs],
          by simp [lineResult, hm, hc, hs]⟩

/-- Concatenation of the content fragments, as accumulated by
`full_response += content`. -/
def sjoin : List String → String
  | [] => ""
  | s :: l => s ++ sjoin l

/-- Running the loop over plain nonempty content frames accumulates
their concatenation and yields one `content` event per frame, in order. -/
lemma runLines_content_frames (m f : String) (h : List Msg) (frames : List String)
    (hne : ∀ s ∈ frames, s ≠ ("")) :
    runLines m f h (frames.map (fun s => RawLine.ok ⟨some s, false⟩)) =
      (f ++ sjoin frames, h, frames.map (fun s => Event.content s false)) := by
  induction frames generalizing f with
  | nil => simp [runLines, sjoin]
  | cons s rest ih =>
      have hs : s ≠ "" := hne s (List.mem_cons_self _ _)
      have ih2 := ih (f ++ s) (fun x hx => hne x (List.mem_cons_of_mem _ hx))
      simp [runLines, lineResult, hs, ih2, sjoin, String.append_assoc]

/-- What `generate_response` returns once model selection succeeded. -/
lemma generate_response_eq (r : Router) (hist : List Msg) (q : String) (b : Backend)
    (sel : String × String × TaskType) (hsel : r.select_model q = some sel) :
    generate_response r hist q b =
      some ⟨Event.modelSelected sel.1 sel.2.1 sel.2.2.value ::
              ((runLines sel.1 ("") (hist ++ [⟨"user", q⟩]) b.lines).2.2 ++
                (match b.exn with
                 | some e => [Event.error e sel.1]
                 | none => [])),
            (runLines sel.1 ("") (hist ++ [⟨"user", q⟩]) b.lines).2.1⟩ := by
  simp [generate_response, hsel]

/-! ### C1 -/

/-- C1 (amended): when the backend call raises (network failure,
timeout, mid-stream error) before any terminal frame, the event sequence
ends with exactly one `Error` event; when the stream closes without a
terminal frame and without raising, no `Error` event is emitted at all
and the sequence simply ends after the content events.  In both cases no
assistant message is committed: the in-memory history gains only the
user turn (and `generate_response` never writes the store). -/
theorem C1_no_terminal_no_commit (r : Router) (hist : List Msg) (q : String) (b : Backend)
    (sel : String × String × TaskType)
    (hsel : r.select_model q = some sel)
    (hnd : ∀ l ∈ b.lines, isDoneLine l = false) :
    ∃ g, generate_response r hist q b = some g
      ∧ g.history = hist ++ [⟨"user", q⟩]
      ∧ (∀ e, b.exn = some e →
          g.events.getLast? = some (Event.error e sel.1)
          ∧ g.events.countP isErrorEv = 1)
      ∧ (b.exn = none → g.events.countP isErrorEv = 0) := by
  obtain ⟨hh, cs, hcs⟩ := runLines_no_done sel.1 ("") (hist ++ [⟨"user", q⟩]) b.lines hnd
  have hrun0 := runLines_no_error sel.1 ("") (hist ++ [⟨"user", q⟩]) b.lines
  refine ⟨_, generate_response_eq r hist q b sel hsel, by simpa using hh, ?_, ?_⟩
  · intro e he
    rw [he]
    constructor
    · show (Event.modelSelected sel.1 sel.2.1 sel.2.2.value ::
          ((runLines sel.1 ("") (hist ++ [⟨"user", q⟩]) b.lines).2.2 ++
            [Event.error e sel.1])).getLast? = _
      rw [← List.cons_append, List.getLast?_concat]
    · show (Event.modelSelected sel.1 sel.2.1 sel.2.2.value ::
          ((runLines sel.1 ("") (hist ++ [⟨"user", q⟩]) b.lines).2.2 ++
            [Event.error e sel.1])).countP isErrorEv = 1
      simp [List.countP_cons, List.countP_append, hrun0, isErrorEv]
  · intro he
    rw [he]
    show (Event.modelSelected sel.1 sel.2.1 sel.2.2.value ::
        ((runLines sel.1 ("") (hist ++ [⟨"user", q⟩]) b.lines).2.2 ++ [])).countP isErrorEv = 0
    simp [List.countP_cons, List.countP_append, hrun0, isErrorEv]

/-- Backend stream of the C1 counterexample: one content frame, then a
clean close with no terminal frame and no exception. -/
def bHelOnly : Backend := ⟨[RawLine.ok ⟨some ("Hel"), false⟩], none⟩

/-- Counterexample to C1 as stated: the example stream of the spec
(`[{message:{content:"Hel"}}]`, closing with no terminal frame) does NOT
end with an `Error` event — the sequence ends with the `Content` event
and contains no error at all (though indeed no assistant message is
committed). -/
theorem C1_counterexample :
    generate_response sampleRouter [] ("hello") bHelOnly =
      some ⟨[Event.modelSelected ("deepseek-v3.1") ("Core Intelligence Brain") ("quick"),
             Event.content ("Hel") false],
            [⟨"user", "hello"⟩]⟩
    ∧ (generate_response sampleRouter [] ("hello") bHelOnly).map
        (fun g => g.events.countP isErrorEv) = some 0 := by
  constructor <;> decide

/-- Witness for C1 (amended): a failing stream (`exn = some "timeout"`)
after one content frame ends in exactly one `Error`, and only the user
turn is committed. -/
theorem C1_no_terminal_no_commit_witness :
    (generate_response sampleRouter [] ("hello")
        ⟨[RawLine.ok ⟨some ("Hel"), false⟩], some ("timeout")⟩).map
        (fun g => (g.history, g.events.getLast?, g.events.countP isErrorEv)) =
      some ([⟨"user", "hello"⟩],
        some (Event.error ("timeout") ("deepseek-v3.1")), 1) := by
  obtain ⟨g, hg, hh, herr, -⟩ := C1_no_terminal_no_commit sampleRouter []
    ("hello") ⟨[RawLine.ok ⟨some ("Hel"), false⟩], some ("timeout")⟩
    ("deepseek-v3.1", "Core Intelligence Brain", TaskType.QUICK) (by decide) (by decide)
  obtain ⟨hlast, hcount⟩ := herr ("timeout") rfl
  rw [hg]
  simp [hh, hlast, hcount]

/-! ### C2 -/

/-- C2 (amended): when the stream delivers nonempty content frames
followed by a terminal frame, the events are `ModelSelected`, one
`Content` per frame in order, then `Complete` carrying the concatenated
full text and the selected model name, and exactly one new assistant
message with the full text is committed — to the in-memory context
window only: `generate_response` performs no store write, and the
`/chat` endpoint passes the `ChatManager` state through unchanged
(persistence happens only via the separate history endpoint). -/
theorem C2_terminal_commit_in_memory (r : Router) (hist : List Msg) (q : String)
    (frames : List String) (sel : String × String × TaskType) (b : Backend) (db : DB)
    (hsel : r.select_model q = some sel)
    (hne : ∀ s ∈ frames, s ≠ (""))
    (hb : b = ⟨frames.map (fun s => RawLine.ok ⟨some s, false⟩) ++ [RawLine.ok ⟨none, true⟩],
               none⟩) :
    generate_response r hist q b =
      some ⟨Event.modelSelected sel.1 sel.2.1 sel.2.2.value ::
              (frames.map (fun s => Event.content s false) ++
                [Event.complete (sjoin frames) sel.1]),
            hist ++ [⟨"user", q⟩, ⟨"assistant", sjoin frames⟩]⟩
    ∧ api_chat_stream r hist q b db =
        some (⟨Event.modelSelected sel.1 sel.2.1 sel.2.2.value ::
                 (frames.map (fun s => Event.content s false) ++
                   [Event.complete (sjoin frames) sel.1]),
               hist ++ [⟨"user", q⟩, ⟨"assistant", sjoin frames⟩]⟩, db) := by
  subst hb
  have hfront := runLines_content_frames sel.1 ("") (hist ++ [⟨"user", q⟩]) frames hne
  have hgen := generate_response_eq r hist q
    ⟨frames.map (fun s => RawLine.ok ⟨some s, false⟩) ++ [RawLine.ok ⟨none, true⟩], none⟩
    sel hsel
  have hrun : runLines sel.1 ("") (hist ++ [⟨"user", q⟩])
      (frames.map (fun s => RawLine.ok ⟨some s, false⟩) ++ [RawLine.ok ⟨none, true⟩]) =
      (sjoin frames,
       (hist ++ [⟨"user", q⟩]) ++ [⟨"assistant", sjoin frames⟩],
       frames.map (fun s => Event.content s false) ++
         [Event.complete (sjoin frames) sel.1]) := by
    rw [runLines_append, hfront]
    simp [runLines, lineResult]
  have hmain : generate_response r hist q
      ⟨frames.map (fun s => RawLine.ok ⟨some s, false⟩) ++ [RawLine.ok ⟨none, true⟩], none⟩ =
      some ⟨Event.modelSelected sel.1 sel.2.1 sel.2.2.value ::
              (frames.map (fun s => Event.content s false) ++
                [Event.complete (sjoin frames) sel.1]),
            hist ++ [⟨"user", q⟩, ⟨"assistant", sjoin frames⟩]⟩ := by
    rw [hgen]
    simp [hrun]
  exact ⟨hmain, by simp [api_chat_stream, hmain]⟩

/-- The example stream of the spec: frames Hel and lo, then the terminal
frame, clean close. -/
def bHelLoDone : Backend :=
  ⟨[RawLine.ok ⟨some ("Hel"), false⟩, RawLine.ok ⟨some ("lo"), false⟩,
    RawLine.ok ⟨none, true⟩], none⟩

/-- Counterexample to C2 as stated: on the example stream of the spec the
full text "Hello" is committed to the in-memory history, but NOT to the
Conversation Store — the `/chat` endpoint returns the store exactly as
it was (here the empty store, which still holds no message rows), so no
"single logical commit" to the store takes place in `generate`. -/
theorem C2_counterexample :
    api_chat_stream sampleRouter [] ("add") bHelLoDone DB.empty =
      some (⟨[Event.modelSelected ("deepseek-v3.1") ("Core Intelligence Brain") ("general"),
              Event.content ("Hel") false, Event.content ("lo") false,
              Event.complete ("Hello") ("deepseek-v3.1")],
             [⟨"user", "add"⟩, ⟨"assistant", "Hello"⟩]⟩, DB.empty)
    ∧ DB.empty.msgs = [] := by
  constructor <;> decide

/-- Witness for C2 (amended): the example frames of the spec through the
sample registry, with the concrete event list and in-memory commit. -/
theorem C2_terminal_commit_in_memory_witness :
    generate_response sampleRouter [] ("summon") bHelLoDone =
      some ⟨[Event.modelSelected ("deepseek-v3.1") ("Core Intelligence Brain") ("general"),
             Event.content ("Hel") false, Event.content ("lo") false,
             Event.complete ("Hello") ("deepseek-v3.1")],
            [⟨"user", "summon"⟩, ⟨"assistant", "Hello"⟩]⟩
    ∧ api_chat_stream sampleRouter [] ("summon") bHelLoDone DB.empty =
        some (⟨[Event.modelSelected ("deepseek-v3.1") ("Core Intelligence Brain") ("general"),
                Event.content ("Hel") false, Event.content ("lo") false,
                Event.complete ("Hello") ("deepseek-v3.1")],
               [⟨"user", "summon"⟩, ⟨"assistant", "Hello"⟩]⟩, DB.empty) :=
  C2_terminal_commit_in_memory sampleRouter [] ("summon") ["Hel", "lo"]
    ("deepseek-v3.1", "Core Intelligence Brain", TaskType.GENERAL) bHelLoDone DB.empty
    (by decide) (by decide) (by decide)

/-! ### C7 -/

/-- C7 (amended): events of one `generate` call start with exactly one
`ModelSelected`; an `Error` occurs exactly when the backend call raises,
in which case it is the single error and the last event; when the stream
is the protocol-conforming shape (content frames, a single final
terminal frame, no exception) the sequence is exactly `ModelSelected`,
`Content*` in frame order, then one final `Complete`; but when the
stream closes with neither a terminal frame nor an exception, no
terminal event is emitted at all (the claimed property of exactly one of
Complete/Error" fails there, see the counterexample). -/
theorem C7_event_ordering (r : Router) (hist : List Msg) (q : String) (b : Backend)
    (sel : String × String × TaskType) (g : GenResult)
    (hsel : r.select_model q = some sel)
    (hg : generate_response r hist q b = some g) :
    g.events.head? = some (Event.modelSelected sel.1 sel.2.1 sel.2.2.value)
    ∧ g.events.countP isErrorEv = (if b.exn.isSome then 1 else 0)
    ∧ (∀ e, b.exn = some e → g.events.getLast? = some (Event.error e sel.1))
    ∧ (∀ front c, b.exn = none → b.lines = front ++ [RawLine.ok c] → c.done = true →
        (∀ l ∈ front, isDoneLine l = false) →
        ∃ cs : List (String × Bool), ∃ full : String,
          g.events = Event.modelSelected sel.1 sel.2.1 sel.2.2.value ::
            (cs.map (fun p => Event.content p.1 p.2) ++ [Event.complete full sel.1])
          ∧ g.events.getLast? = some (Event.complete full sel.1))
    ∧ (b.exn = none → (∀ l ∈ b.lines, isDoneLine l = false) →
        g.events.countP isTerminalEv = 0) := by
  have hgen := generate_response_eq r hist q b sel hsel
  rw [hgen] at hg
  injection hg with hq
  subst hq
  have hrun0 := runLines_no_error sel.1 ("") (hist ++ [⟨"user", q⟩]) b.lines
  refine ⟨rfl, ?_, ?_, ?_, ?_⟩
  · cases he : b.exn with
    | none =>
        simp only [he, Option.isSome_none, if_false]
        simpa [List.countP_cons, List.countP_append, isErrorEv] using hrun0
    | some e =>
        simp only [he, Option.isSome_some, if_true]
        simp [List.countP_cons, List.countP_append, hrun0, isErrorEv]
  · intro e he
    rw [he]
    show (Event.modelSelected sel.1 sel.2.1 sel.2.2.value ::
        ((runLines sel.1 ("") (hist ++ [⟨"user", q⟩]) b.lines).2.2 ++
          [Event.error e sel.1])).getLast? = _
    rw [← List.cons_append, List.getLast?_concat]
  · intro front c he hlines hdone hfront
    rw [he, hlines]
    obtain ⟨hh, cs1, hc1⟩ := runLines_no_done sel.1 ("") (hist ++ [⟨"user", q⟩]) front hfront
    obtain ⟨cs2, full, hc2, _⟩ := lineResult_done sel.1
      (runLines sel.1 ("") (hist ++ [⟨"user", q⟩]) front).1
      (runLines sel.1 ("") (hist ++ [⟨"user", q⟩]) front).2.1 c hdone
    refine ⟨cs1 ++ cs2, full, ?_, ?_⟩
    · rw [runLines_append]
      show Event.modelSelected sel.1 sel.2.1 sel.2.2.value ::
          (((runLines sel.1 ("") (hist ++ [⟨"user", q⟩]) front).2.2 ++
            (runLines sel.1 (runLines sel.1 ("") (hist ++ [⟨"user", q⟩]) front).1
              (runLines sel.1 ("") (hist ++ [⟨"user", q⟩]) front).2.1
              [RawLine.ok c]).2.2) ++ []) = _
      simp [runLines, hc1, hc2, List.map_append]
    · rw [runLines_append]
      show (Event.modelSelected sel.1 sel.2.1 sel.2.2.value ::
          (((runLines sel.1 ("") (hist ++ [⟨"user", q⟩]) front).2.2 ++
            (runLines sel.1 (runLines sel.1 ("") (hist ++ [⟨"user", q⟩]) front).1
              (runLines sel.1 ("") (hist ++ [⟨"user", q⟩]) front).2.1
              [RawLine.ok c]).2.2) ++ [])).getLast? = _
      simp only [runLines, hc2, List.append_nil]
      rw [← List.cons_append, ← List.append_assoc, List.getLast?_concat]
  · intro he hnd
    rw [he]
    obtain ⟨hh, cs1, hc1⟩ := runLines_no_done sel.1 ("") (hist ++ [⟨"user", q⟩]) b.lines hnd
    show (Event.modelSelected sel.1 sel.2.1 sel.2.2.value ::
        ((runLines sel.1 ("") (hist ++ [⟨"user", q⟩]) b.lines).2.2 ++ [])).countP
          isTerminalEv = 0
    rw [hc1]
    simp [List.countP_cons, List.countP_map, isTerminalEv, Function.comp]

/-- Counterexample to C7 as stated: a stream that closes cleanly with no
frames at all yields only the `ModelSelected` event — there is no
`Complete` or `Error` event, so the event sequence does not end with
"exactly one of Complete/Error". -/
theorem C7_counterexample :
    generate_response sampleRouter [] ("ping") ⟨[], none⟩ =
      some ⟨[Event.modelSelected ("deepseek-v3.1") ("Core Intelligence Brain") ("general")],
            [⟨"user", "ping"⟩]⟩
    ∧ (generate_response sampleRouter [] ("ping") ⟨[], none⟩).map
        (fun g => g.events.countP isTerminalEv) = some 0 := by
  constructor <;> decide

/-- Witness for C7 (amended): the protocol-conforming stream "Hel", "lo",
terminal frame; the head is `ModelSelected` and the error count is 0. -/
theorem C7_event_ordering_witness :
    (GenResult.mk
        [Event.modelSelected ("deepseek-v3.1") ("Core Intelligence Brain") ("general"),
         Event.content ("Hel") false, Event.content ("lo") false,
         Event.complete ("Hello") ("deepseek-v3.1")]
        [⟨"user", "chant"⟩, ⟨"assistant", "Hello"⟩]).events.head? =
      some (Event.modelSelected ("deepseek-v3.1") ("Core Intelligence Brain") ("general"))
    ∧ (GenResult.mk
        [Event.modelSelected ("deepseek-v3.1") ("Core Intelligence Brain") ("general"),
         Event.content ("Hel") false, Event.content ("lo") false,
         Event.complete ("Hello") ("deepseek-v3.1")]
        [⟨"user", "chant"⟩, ⟨"assistant", "Hello"⟩]).events.countP isErrorEv =
      (if (none : Option String).isSome then 1 else 0) :=
  have happ := C7_event_ordering sampleRouter [] ("chant") bHelLoDone
    ("deepseek-v3.1", "Core Intelligence Brain", TaskType.GENERAL)
    (GenResult.mk
      [Event.modelSelected ("deepseek-v3.1") ("Core Intelligence Brain") ("general"),
       Event.content ("Hel") false, Event.content ("lo") false,
       Event.complete ("Hello") ("deepseek-v3.1")]
      [⟨"user", "chant"⟩, ⟨"assistant", "Hello"⟩])
    (by decide) (by decide)
  ⟨happ.1, happ.2.1⟩

/-! ### C8 -/

/-- C8: a line that fails to parse as JSON is skipped: inserting a
malformed line anywhere in the stream changes neither the events emitted
(no event is produced for it, no abort happens) nor the resulting
history — all parseable frames before and after it are processed exactly
as without it. -/
theorem C8_malformed_line_skipped (r : Router) (hist : List Msg) (q : String)
    (pre post : List RawLine) (exn : Option String) :
    generate_response r hist q ⟨pre ++ RawLine.malformed :: post, exn⟩ =
      generate_response r hist q ⟨pre ++ post, exn⟩ := by
  have key : ∀ (m f : String) (h : List Msg),
      runLines m f h (pre ++ RawLine.malformed :: post) = runLines m f h (pre ++ post) := by
    intro m f h
    rw [runLines_append, runLines_append]
    simp [runLines, lineResult]
  cases hsel : r.select_model q with
  | none => simp [generate_response, hsel]
  | some sel =>
      rw [generate_response_eq r hist q _ sel hsel, generate_response_eq r hist q _ sel hsel]
      simp only []
      rw [key]

/-! ### C10 -/

/-- C10: when the backend call raises before any terminal frame (the
turn ends with an `Error` event), the user turn — appended to the
in-memory context before the backend call was opened — is retained, not
rolled back: the final history is exactly the old history plus the user
message, and that user message appears, whatever the history length, in
the prompt `_prepare_messages` builds for the next call (after the next
call appends its own user turn it is second-from-last, hence always
inside the last-10 window); only the assistant commit is skipped. -/
theorem C10_user_turn_retained_on_error (r : Router) (hist : List Msg) (q q2 : String)
    (b : Backend) (sel : String × String × TaskType) (e : String)
    (hsel : r.select_model q = some sel)
    (herr : b.exn = some e)
    (hnd : ∀ l ∈ b.lines, isDoneLine l = false) :
    ∃ g, generate_response r hist q b = some g
      ∧ g.events.getLast? = some (Event.error e sel.1)
      ∧ g.history = hist ++ [⟨"user", q⟩]
      ∧ (⟨"user", q⟩ : Msg) ∈ prepare_messages (g.history ++ [⟨"user", q2⟩]) := by
  obtain ⟨hh, cs, hcs⟩ := runLines_no_done sel.1 ("") (hist ++ [⟨"user", q⟩]) b.lines hnd
  refine ⟨_, generate_response_eq r hist q b sel hsel, ?_, by simpa using hh, ?_⟩
  · rw [herr]
    show (Event.modelSelected sel.1 sel.2.1 sel.2.2.value ::
        ((runLines sel.1 ("") (hist ++ [⟨"user", q⟩]) b.lines).2.2 ++
          [Event.error e sel.1])).getLast? = _
    rw [← List.cons_append, List.getLast?_concat]
  · dsimp only
    rw [hh]
    unfold prepare_messages
    rw [List.append_assoc]
    have hk : (hist ++ ([(⟨"user", q⟩ : Msg)] ++ [(⟨"user", q2⟩ : Msg)])).length - 10 ≤
        hist.length := by
      simp only [List.length_append, List.length_cons, List.length_nil]
      omega
    rw [List.drop_append_of_le_length hk]
    exact List.mem_cons_of_mem _ (List.mem_append_right _ (by simp))

/-- Witness for C10: a timed-out call after one content frame retains
the user turn "later", and that turn sits in the prompt built for the
next call "again". -/
theorem C10_user_turn_retained_on_error_witness :
    (generate_response sampleRouter [] ("later")
        ⟨[RawLine.ok ⟨some ("par"), false⟩], some ("boom")⟩).map
        (fun g => (g.history, g.events.getLast?)) =
      some ([⟨"user", "later"⟩], some (Event.error ("boom") ("deepseek-v3.1")))
    ∧ (⟨"user", "later"⟩ : Msg) ∈
        prepare_messages [⟨"user", "later"⟩, ⟨"user", "again"⟩] := by
  obtain ⟨g, hg, hlast, hh, hmem⟩ :=
    C10_user_turn_retained_on_error sampleRouter [] ("later") ("again")
      ⟨[RawLine.ok ⟨some ("par"), false⟩], some ("boom")⟩
      ("deepseek-v3.1", "Core Intelligence Brain", TaskType.GENERAL) ("boom")
      (by decide) (by decide) (by decide)
  rw [hh] at hmem
  constructor
  · rw [hg]
    simp [hh, hlast]
  · simpa using hmem

/-! ### Store lemmas -/

/-- The `UPDATE conversations ... WHERE id = ?` of `add_message` acts on
the first row `get_conversation` fetches: finding after updating is
updating the found row. -/
lemma find?_map_updIf (p : ConvRow → Bool) (upd : ConvRow → ConvRow)
    (hp : ∀ c, p (upd c) = p c) (l : List ConvRow) :
    (l.map (fun c => if p c then upd c else c)).find? p = (l.find? p).map upd := by
  rw [List.find?_map]
  have hpg : (p ∘ fun c => if p c then upd c else c) = p := by
    funext c
    by_cases h : p c
    · simp [Function.comp, h, hp]
    · simp [Function.comp, h]
  rw [hpg]
  cases hf : l.find? p with
  | none => rfl
  | some c =>
      have hc : p c := List.find?_some hf
      simp [Option.map_some', if_pos hc]

lemma convs_update_find? (cid t : Nat) (l : List ConvRow) :
    (l.map (fun c => if c.id == cid then
        { c with updated_at := t, message_count := c.message_count + 1 } else c)).find?
      (fun c => c.id == cid) =
    (l.find? (fun c => c.id == cid)).map
      (fun c => { c with updated_at := t, message_count := c.message_count + 1 }) :=
  find?_map_updIf (fun c => c.id == cid)
    (fun c => { c with updated_at := t, message_count := c.message_count + 1 })
    (fun _ => rfl) l

/-- In a `Pairwise R` list, every member is the last element or is
`R`-below the last element. -/
lemma pairwise_getLast?_of_mem {α : Type} {R : α → α → Prop} (l : List α)
    (hp : l.Pairwise R) (x : α) (hx : x ∈ l) :
    l.getLast? = some x ∨ ∃ z, l.getLast? = some z ∧ R x z := by
  induction l with
  | nil => cases hx
  | cons a t ih =>
      cases t with
      | nil =>
          have : x = a := by simpa using hx
          subst this
          exact Or.inl rfl
      | cons b u =>
          rw [List.getLast?_cons_cons]
          rcases List.mem_cons.mp hx with rfl | hx'
          · obtain ⟨z, hz⟩ : ∃ z, (b :: u).getLast? = some z :=
              ⟨(b :: u).getLast (by simp), List.getLast?_eq_getLast _ _⟩
            have hr : R x z :=
              (List.pairwise_cons.mp hp).1 z (List.mem_of_getLast?_eq_some hz)
            exact Or.inr ⟨z, hz, hr⟩
          · rcases ih (List.pairwise_cons.mp hp).2 hx' with h | ⟨z, hz, hr⟩
            · exact Or.inl h
            · exact Or.inr ⟨z, hz, hr⟩

lemma msgLe_trans : ∀ (a b c : MsgRow), msgLe a b → msgLe b c → msgLe a c := by
  intro a b c hab hbc
  simp only [msgLe, decide_eq_true_eq] at *
  omega

lemma msgLe_total : ∀ (a b : MsgRow), msgLe a b || msgLe b a := by
  intro a b
  simp only [msgLe, Bool.or_eq_true, decide_eq_true_eq]
  omega

/-- Sorting by timestamp puts a row strictly fresher than all others
last, whatever the sort does with the rest. -/
lemma mergeSort_getLast?_strict_max (l : List MsgRow) (a : MsgRow)
    (hmax : ∀ x ∈ l, x.timestamp < a.timestamp) :
    ((l ++ [a]).mergeSort msgLe).getLast? = some a := by
  have hperm := List.mergeSort_perm (l ++ [a]) msgLe
  have hsorted := List.sorted_mergeSort msgLe_trans msgLe_total (l ++ [a])
  have hamem : a ∈ (l ++ [a]).mergeSort msgLe := by
    rw [List.mem_mergeSort]
    simp
  rcases pairwise_getLast?_of_mem _ hsorted a hamem with h | ⟨z, hz, hr⟩
  · exact h
  · have hzmem : z ∈ l ++ [a] := hperm.mem_iff.mp (List.mem_of_getLast?_eq_some hz)
    rcases List.mem_append.mp hzmem with hzl | hza
    · exfalso
      have h1 := hmax z hzl
      have h2 : a.timestamp ≤ z.timestamp := by
        simpa [msgLe, decide_eq_true_eq] using hr
      omega
    · have : z = a := by simpa using hza
      subst this
      exact hz

/-! ### C5 -/

/-- C5: appending a message to an existing conversation, in one
transaction (one state transition of the model), inserts exactly the new
message row, inserts exactly the new search-index entry, and leaves the
parent conversation with `message_count` incremented by exactly one and
`updated_at` advanced to the transaction time; a subsequent
`get_conversation` returns that updated conversation, and — provided the
timestamp of the new row is fresher than the previous messages
— a message list whose last element is the new message.  No intermediate
state exists: every effect is a field of the single resulting `DB`. -/
theorem C5_append_message_atomic (db : DB) (cid : Nat) (role content : String)
    (model : Option String) (t : Nat) (conv : ConvRow)
    (hc : db.convs.find? (fun c => c.id == cid) = some conv)
    (hts : ∀ m ∈ db.msgs, m.conversation_id = cid → m.timestamp < t) :
    (add_message db cid role content model t).msgs =
        db.msgs ++ [⟨db.nextMsgId, cid, role, content, model, t⟩]
    ∧ (add_message db cid role content model t).fts = db.fts ++ [⟨content, cid⟩]
    ∧ (add_message db cid role content model t).convs.find? (fun c => c.id == cid) =
        some { conv with updated_at := t, message_count := conv.message_count + 1 }
    ∧ ∃ msgs, get_conversation (add_message db cid role content model t) cid =
        some ({ conv with updated_at := t, message_count := conv.message_count + 1 }, msgs)
        ∧ msgs.getLast? = some ⟨db.nextMsgId, cid, role, content, model, t⟩ := by
  have hfind : (add_message db cid role content model t).convs.find? (fun c => c.id == cid) =
      some { conv with updated_at := t, message_count := conv.message_count + 1 } := by
    show (db.convs.map _).find? _ = _
    rw [convs_update_find?, hc]
    rfl
  have hfil : (add_message db cid role content model t).msgs.filter
      (fun m => m.conversation_id == cid) =
      db.msgs.filter (fun m => m.conversation_id == cid) ++
        [⟨db.nextMsgId, cid, role, content, model, t⟩] := by
    show (db.msgs ++ [_]).filter _ = _
    rw [List.filter_append]
    simp
  refine ⟨rfl, rfl, hfind, ?_⟩
  have hget : get_conversation (add_message db cid role content model t) cid =
      some ({ conv with updated_at := t, message_count := conv.message_count + 1 },
        ((db.msgs.filter (fun m => m.conversation_id == cid) ++
          [(⟨db.nextMsgId, cid, role, content, model, t⟩ : MsgRow)]).mergeSort msgLe :
            List MsgRow)) := by
    simp only [get_conversation, hfind, hfil]
  exact ⟨_, hget, mergeSort_getLast?_strict_max _ _ (fun x hx => by
    have hm := List.mem_filter.mp hx
    exact hts x hm.1 (by simpa using hm.2))⟩

/-- A one-conversation store (id 1, no messages yet). -/
def dbW : DB := ⟨[⟨1, "t", 0, 0, none, 0⟩], [], [], 2, 1⟩

/-- Witness for C5: appending hello to conversation
1 at time 5 gives `message_count` 2 - 1 = 1, `updated_at` 5, and a
message list ending in "hello". -/
theorem C5_append_message_atomic_witness :
    (get_conversation (add_message dbW 1 ("user") ("hello") none 5) 1).map
        (fun p => (p.1, p.2.getLast?)) =
      some (⟨1, "t", 0, 5, none, 1⟩, some ⟨1, 1, "user", "hello", none, 5⟩) := by
  obtain ⟨-, -, -, msgs, hget, hlast⟩ :=
    C5_append_message_atomic dbW 1 ("user") ("hello") none 5 ⟨1, "t", 0, 0, none, 0⟩
      (by decide) (by decide)
  rw [hget]
  simp [hlast, dbW]

/-! ### C6 -/

/-- Over input made of bareword characters only, the query splitter
returns the single accumulated bareword. -/
lemma parseTermsAux_all_bareword (cs : List Char)
    (h : ∀ c ∈ cs, isBarewordChar c = true) :
    ∀ acc : List Char, parseTermsAux acc cs =
      some (if (acc.reverse ++ cs).isEmpty then [] else [acc.reverse ++ cs]) := by
  induction cs with
  | nil =>
      intro acc
      cases acc with
      | nil => rfl
      | cons a t => simp [parseTermsAux]
  | cons c s ih =>
      intro acc
      have hc : isBarewordChar c = true := h c (List.mem_cons_self _ _)
      rw [parseTermsAux, if_pos hc, ih (fun x hx => h x (List.mem_cons_of_mem _ hx))]
      have he : (c :: acc).reverse ++ s = acc.reverse ++ (c :: s) := by
        simp [List.reverse_cons, List.append_assoc]
      rw [he]

/-- A nonempty, all-alphanumeric, non-operator query parses as its one
bareword term. -/
lemma ftsParseQuery_single (tok : String) (h1 : tok.data ≠ [])
    (h2 : ∀ c ∈ tok.data, c.isAlphanum = true)
    (h3 : ftsOperatorWords.contains tok.data = false) :
    ftsParseQuery tok = some [tok.data] := by
  have hbare : ∀ c ∈ tok.data, isBarewordChar c = true := by
    intro c hc
    simp [isBarewordChar, h2 c hc]
  have hparse := parseTermsAux_all_bareword tok.data hbare []
  rw [List.reverse_nil, List.nil_append] at hparse
  rw [if_neg (by simpa [List.isEmpty_iff] using h1)] at hparse
  have h3m : tok.data ∉ ftsOperatorWords := by
    intro hm
    have hc : ftsOperatorWords.contains tok.data = true :=
      List.contains_iff_exists_mem_beq.mpr ⟨tok.data, hm, by simp⟩
    rw [h3] at hc
    cases hc
  simp [ftsParseQuery, hparse, h3m]

/-- A single-bareword query matches its own content: the term and the
content tokenize to the very same token list. -/
lemma ftsMatch_self_single (tok : String) : ftsMatch [tok.data] tok = true := by
  unfold ftsMatch ftsTokens
  rw [List.all_eq_true]
  intro tm htm
  have htm2 : tm = tok.data := by simpa using htm
  subst htm2
  rw [List.all_eq_true]
  intro tk htk
  rw [List.contains_iff_exists_mem_beq]
  exact ⟨tk, htk, by simp⟩

/-- After appending a message whose content matches the query terms
while no other index entry does, the search join predicate holds exactly
for the appended-to conversation id. -/
lemma search_pred_after_add (db : DB) (cid : Nat) (role tok : String)
    (model : Option String) (t : Nat) (terms : List (List Char))
    (hfts : ∀ f ∈ db.fts, ftsMatch terms f.content = false)
    (hself : ftsMatch terms tok = true) (c : ConvRow) :
    ((add_message db cid role tok model t).fts.any
      (fun f => f.conversation_id == c.id && ftsMatch terms f.content)) = (cid == c.id) := by
  show ((db.fts ++ [(⟨tok, cid⟩ : FtsRow)]).any _) = _
  rw [List.any_append]
  have h1 : db.fts.any (fun f => f.conversation_id == c.id && ftsMatch terms f.content) =
      false := by
    rw [List.any_eq_false]
    intro f hf
    simp [hfts f hf]
  rw [h1]
  simp [hself]

/-- With pairwise-distinct conversation ids, filtering for one id yields
exactly the one row carrying it. -/
lemma filter_by_id_single (cid : Nat) (conv : ConvRow) :
    ∀ (l : List ConvRow), (l.map (fun c => c.id)).Nodup → conv ∈ l → conv.id = cid →
      l.filter (fun c => cid == c.id) = [conv] := by
  intro l
  induction l with
  | nil => intro _ h; cases h
  | cons a rest ih =>
      intro hnodup hmem hid
      rw [List.map_cons] at hnodup
      have hnd := List.nodup_cons.mp hnodup
      cases hc : (cid == a.id) with
      | true =>
          have hacid : a.id = cid := by
            have := (beq_iff_eq).mp hc
            omega
          have hconv : conv = a := by
            rcases List.mem_cons.mp hmem with rfl | hmem'
            · rfl
            · exfalso
              have hin : conv.id ∈ rest.map (fun c => c.id) :=
                List.mem_map_of_mem _ hmem'
              rw [hid, ← hacid] at hin
              exact hnd.1 hin
          subst hconv
          rw [List.filter_cons_of_pos (by simpa using hc)]
          have hrest : rest.filter (fun c => cid == c.id) = [] := by
            rw [List.filter_eq_nil_iff]
            intro x hx hpx
            have hxid : x.id = cid := by
              have := (beq_iff_eq).mp (by simpa using hpx : (cid == x.id) = true)
              omega
            have hin : conv.id ∈ rest.map (fun c => c.id) := by
              rw [hid, ← hxid]
              exact List.mem_map_of_mem _ hx
            rw [hid, ← hacid] at hin
            exact hnd.1 hin
          rw [hrest]
      | false =>
          have hconv' : conv ∈ rest := by
            rcases List.mem_cons.mp hmem with rfl | h
            · exfalso
              rw [hid] at hc
              simp at hc
            · exact h
          rw [List.filter_cons_of_neg (by simp [hc])]
          exact ih hnd.2 hconv' hid

/-- C6 (amended): for a query that is a plain fts5 bareword term
(nonempty, alphanumeric, not an operator keyword), the search index
mirrors the non-deleted message contents.  After appending a message
whose content is such a token matching no other indexed message,
searching that token succeeds and returns exactly the (updated) parent
conversation; after deleting that conversation the same search succeeds
and returns nothing; deleting an id that no row references is a no-op
(and in particular not an error); and a delete removes, in its single
transaction, exactly the conversation row, its message rows and its
index rows.  The hyphenated example token of the spec is instead an fts5
query syntax error, surfaced as `sqlite3.OperationalError` — see the
counterexample. -/
theorem C6_search_index_bareword (db : DB) (cid did : Nat) (conv : ConvRow)
    (role tok : String) (model : Option String) (t lim : Nat)
    (hmem : conv ∈ db.convs) (hid : conv.id = cid)
    (hnodup : (db.convs.map (fun c => c.id)).Nodup)
    (htok1 : tok.data ≠ [])
    (htok2 : ∀ c ∈ tok.data, c.isAlphanum = true)
    (htok3 : ftsOperatorWords.contains tok.data = false)
    (hfts : ∀ f ∈ db.fts, ftsMatch [tok.data] f.content = false)
    (hlim : 1 ≤ lim)
    (hdc : ∀ c ∈ db.convs, c.id ≠ did)
    (hdm : ∀ m ∈ db.msgs, m.conversation_id ≠ did)
    (hdf : ∀ f ∈ db.fts, f.conversation_id ≠ did) :
    search_conversations (add_message db cid role tok model t) tok lim =
        some [{ conv with updated_at := t, message_count := conv.message_count + 1 }]
    ∧ search_conversations (delete_conversation (add_message db cid role tok model t) cid)
        tok lim = some []
    ∧ delete_conversation db did = db
    ∧ (delete_conversation (add_message db cid role tok model t) cid).convs =
        (add_message db cid role tok model t).convs.filter (fun c => !(c.id == cid))
    ∧ (delete_conversation (add_message db cid role tok model t) cid).msgs =
        (add_message db cid role tok model t).msgs.filter
          (fun m => !(m.conversation_id == cid))
    ∧ (delete_conversation (add_message db cid role tok model t) cid).fts =
        (add_message db cid role tok model t).fts.filter
          (fun f => !(f.conversation_id == cid)) := by
  have hparse := ftsParseQuery_single tok htok1 htok2 htok3
  have hself := ftsMatch_self_single tok
  refine ⟨?_, ?_, ?_, rfl, rfl, rfl⟩
  · simp only [search_conversations, hparse]
    have hfilter : (add_message db cid role tok model t).convs.filter
        (fun c => (add_message db cid role tok model t).fts.any
          (fun f => f.conversation_id == c.id && ftsMatch [tok.data] f.content)) =
        [{ conv with updated_at := t, message_count := conv.message_count + 1 }] := by
      rw [List.filter_congr
        (fun c _ => search_pred_after_add db cid role tok model t [tok.data] hfts hself c)]
      show (db.convs.map _).filter _ = _
      rw [List.filter_map]
      have hcomp : ∀ c ∈ db.convs,
          ((fun c : ConvRow => cid == c.id) ∘ (fun c : ConvRow =>
            if c.id == cid then
              { c with updated_at := t, message_count := c.message_count + 1 }
            else c)) c = (cid == c.id) := by
        intro c _
        by_cases h : (c.id == cid) = true <;> simp [Function.comp, h]
      rw [List.filter_congr hcomp, filter_by_id_single cid conv db.convs hnodup hmem hid]
      simp [hid]
    rw [hfilter, List.mergeSort_singleton]
    cases lim with
    | zero => omega
    | succ n => simp
  · simp only [search_conversations, hparse]
    have hfilter : (delete_conversation (add_message db cid role tok model t) cid).convs.filter
        (fun c => (delete_conversation (add_message db cid role tok model t) cid).fts.any
          (fun f => f.conversation_id == c.id && ftsMatch [tok.data] f.content)) = [] := by
      rw [List.filter_eq_nil_iff]
      intro c _ hpc
      rw [List.any_eq_true] at hpc
      obtain ⟨f, hf, hpf⟩ := hpc
      have hf2 : f ∈ (db.fts ++ [(⟨tok, cid⟩ : FtsRow)]).filter
          (fun f => !(f.conversation_id == cid)) := hf
      have hf3 := List.mem_filter.mp hf2
      rcases List.mem_append.mp hf3.1 with hfo | hfn
      · rw [Bool.and_eq_true] at hpf
        rw [hfts f hfo] at hpf
        exact Bool.false_ne_true hpf.2
      · have : f = ⟨tok, cid⟩ := by simpa using hfn
        subst this
        simp at hf3
    rw [hfilter]
    simp
  · unfold delete_conversation
    have h1 : db.convs.filter (fun c => !(c.id == did)) = db.convs :=
      List.filter_eq_self.mpr (fun c hc => by simp [hdc c hc])
    have h2 : db.msgs.filter (fun m => !(m.conversation_id == did)) = db.msgs :=
      List.filter_eq_self.mpr (fun m hm => by simp [hdm m hm])
    have h3 : db.fts.filter (fun f => !(f.conversation_id == did)) = db.fts :=
      List.filter_eq_self.mpr (fun f hf => by simp [hdf f hf])
    rw [h1, h2, h3]

/-- Counterexample to C6 as stated: the example token of the spec,
unique-token-42, is not an fts5 bareword (hyphens are not bareword
characters), so the MATCH query is an fts5 syntax error and the real
`search_conversations` raises `sqlite3.OperationalError` — the error
outcome — instead of returning the appended-to conversation. -/
theorem C6_counterexample :
    ftsParseQuery ("unique-token-42") = none
    ∧ search_conversations (add_message dbW 1 ("user") ("unique-token-42") none 5)
        ("unique-token-42") 20 = none
    ∧ search_conversations
        (delete_conversation (add_message dbW 1 ("user") ("unique-token-42") none 5) 1)
        ("unique-token-42") 20 = none := by
  refine ⟨?_, ?_, ?_⟩ <;> decide

/-- Witness for C6 (amended): one conversation (id 1), the bareword
token uniquetoken42, limit 20, non-existent id 99. -/
theorem C6_search_index_bareword_witness :
    search_conversations (add_message dbW 1 ("user") ("uniquetoken42") none 5)
        ("uniquetoken42") 20 = some [⟨1, "t", 0, 5, none, 1⟩]
    ∧ search_conversations
        (delete_conversation (add_message dbW 1 ("user") ("uniquetoken42") none 5) 1)
        ("uniquetoken42") 20 = some []
    ∧ delete_conversation dbW 99 = dbW := by
  obtain ⟨h1, h2, h3, -, -, -⟩ :=
    C6_search_index_bareword dbW 1 99 ⟨1, "t", 0, 0, none, 0⟩ ("user")
      ("uniquetoken42") none 5 20 (by decide) (by decide) (by decide) (by decide)
      (by decide) (by decide) (by decide) (by decide) (by decide) (by decide) (by decide)
  exact ⟨h1, h2, h3⟩

/-! ### C9 -/

/-- C9 (amended): appending a message under an id with no conversation
row does NOT create a conversation implicitly: the message row (and its
index entry) are inserted orphaned — SQLite does not enforce the foreign
key by default — but a subsequent `get_conversation` still returns
not-found (`none`). -/
theorem C9_no_implicit_conversation (db : DB) (cid : Nat) (role content : String)
    (model : Option String) (t : Nat)
    (habsent : ∀ c ∈ db.convs, c.id ≠ cid) :
    get_conversation (add_message db cid role content model t) cid = none
    ∧ (add_message db cid role content model t).msgs =
        db.msgs ++ [⟨db.nextMsgId, cid, role, content, model, t⟩]
    ∧ (add_message db cid role content model t).fts = db.fts ++ [⟨content, cid⟩] := by
  refine ⟨?_, rfl, rfl⟩
  have hnone : (add_message db cid role content model t).convs.find?
      (fun c => c.id == cid) = none := by
    rw [List.find?_eq_none]
    intro x hx
    obtain ⟨c, hcmem, hxc⟩ := List.mem_map.mp hx
    have hcid : (c.id == cid) = false := by
      simpa using habsent c hcmem
    rw [← hxc]
    simp [hcid]
  simp only [get_conversation, hnone]

/-- Counterexample to C9 as stated: on the empty store,
`add_message 1 "hello"` inserts the message row, yet
`get_conversation 1` returns `none` (not-found) — no conversation was
created implicitly on first message. -/
theorem C9_counterexample :
    get_conversation (add_message DB.empty 1 ("user") ("hello") none 5) 1 = none
    ∧ (add_message DB.empty 1 ("user") ("hello") none 5).msgs =
        [⟨1, 1, "user", "hello", none, 5⟩] := by
  constructor <;> decide

/-- Witness for C9 (amended): a distinct concrete run (id 3). -/
theorem C9_no_implicit_conversation_witness :
    get_conversation (add_message DB.empty 3 ("user") ("yo") none 2) 3 = none
    ∧ (add_message DB.empty 3 ("user") ("yo") none 2).msgs =
        [] ++ [⟨1, 3, "user", "yo", none, 2⟩]
    ∧ (add_message DB.empty 3 ("user") ("yo") none 2).fts = [] ++ [⟨"yo", 3⟩] :=
  C9_no_implicit_conversation DB.empty 3 ("user") ("yo") none 2 (by decide)

end Nexus
